import Mathlib

/-!
Verification of the indicator-and-scoring pipeline of
`signal-strength-analyzer` (src/src/main.py).

Prices and moving averages are modelled as rationals; a pandas `NaN`
(missing indicator value) is modelled as `none : Option ℚ`.  Dates are
modelled as naturals.  Fallible functions return `Except String`.
-/

/-- Contribution of rule 1 (price vs SMA20) of `score_row`:
`if pd.notna(sma20): score += 2 if close > sma20 else -2`. -/
def rule1 (close : ℚ) (sma20 : Option ℚ) : Int :=
  match sma20 with
  | some a => if close > a then 2 else -2
  | none => 0

/-- Contribution of rule 2 (SMA20 vs SMA50) of `score_row`. -/
def rule2 (sma20 sma50 : Option ℚ) : Int :=
  match sma20, sma50 with
  | some a, some b => if a > b then 2 else -2
  | _, _ => 0

/-- Contribution of rule 3 (SMA50 vs SMA200) of `score_row`. -/
def rule3 (sma50 sma200 : Option ℚ) : Int :=
  match sma50, sma200 with
  | some a, some b => if a > b then 4 else -4
  | _, _ => 0

/-- Contribution of rule 4 (slope of SMA50 over last 5 days) of `score_row`. -/
def rule4 (sma50 sma50_prev5 : Option ℚ) : Int :=
  match sma50, sma50_prev5 with
  | some a, some b => if a > b then 4 else -4
  | _, _ => 0

/-- Contribution of rule 5 (distance from SMA200) of `score_row`:
`dist = (close - sma200) / sma200`, `+8` if `dist >= 0.10`,
`-8` if `dist <= -0.10`, else nothing. -/
def rule5 (close : ℚ) (sma200 : Option ℚ) : Int :=
  match sma200 with
  | some a =>
      if (close - a) / a ≥ 1 / 10 then 8
      else if (close - a) / a ≤ -(1 / 10) then -8
      else 0
  | none => 0

/-- `score_row` from main.py: sequentially accumulates the five rule
contributions into `score` (starting from 0) and returns
`int(max(-20, min(20, score)))`.  `close` is always a number in the source
(it is never `notna`-tested); each optional argument models a possibly-NaN
pandas value. -/
def score_row (close : ℚ) (sma20 sma50 sma200 sma50_prev5 : Option ℚ) : Int :=
  let s0 : Int := 0
  let s1 := match sma20 with
    | some a => s0 + (if close > a then 2 else -2)
    | none => s0
  let s2 := match sma20, sma50 with
    | some a, some b => s1 + (if a > b then 2 else -2)
    | _, _ => s1
  let s3 := match sma50, sma200 with
    | some a, some b => s2 + (if a > b then 4 else -4)
    | _, _ => s2
  let s4 := match sma50, sma50_prev5 with
    | some a, some b => s3 + (if a > b then 4 else -4)
    | _, _ => s3
  let s5 := match sma200 with
    | some a =>
        let dist := (close - a) / a
        if dist ≥ 1 / 10 then s4 + 8
        else if dist ≤ -(1 / 10) then s4 - 8
        else s4
    | none => s4
  max (-20) (min 20 s5)

/-- `rolling(w, min_periods=w).mean()` over the close column, as used by
`add_indicators`: at position `i` the value is present exactly when a full
window of `w` observations ending at `i` exists, and is then the mean of
those `w` closes. -/
def rollingMean (w : Nat) (close : List ℚ) : List (Option ℚ) :=
  (List.range close.length).map fun i =>
    if w ≤ i + 1 then some ((((close.drop (i + 1 - w)).take w).sum) / w) else none

/-- The three SMA columns produced by `add_indicators`. -/
structure Indicators where
  sma20 : List (Option ℚ)
  sma50 : List (Option ℚ)
  sma200 : List (Option ℚ)
deriving Repr

/-- `add_indicators` from main.py: adds `sma20`, `sma50`, `sma200` columns,
each a rolling mean with `min_periods` equal to the window. -/
def add_indicators (close : List ℚ) : Indicators :=
  ⟨rollingMean 20 close, rollingMean 50 close, rollingMean 200 close⟩

set_option maxHeartbeats 1000000 in
lemma score_row_eq_clamp (close : ℚ) (sma20 sma50 sma200 sma50_prev5 : Option ℚ) :
    score_row close sma20 sma50 sma200 sma50_prev5 =
      max (-20) (min 20 (rule1 close sma20 + rule2 sma20 sma50 + rule3 sma50 sma200 +
        rule4 sma50 sma50_prev5 + rule5 close sma200)) := by
  cases sma20 <;> cases sma50 <;> cases sma200 <;> cases sma50_prev5 <;>
    dsimp only [score_row, rule1, rule2, rule3, rule4, rule5] <;>
    first
      | omega
      | (split_ifs <;> omega)

/-- C1: for every input tuple, the trend score is an integer in [-20, 20],
and it equals the sum of the five rule contributions clamped to [-20, 20]. -/
theorem C1_score_bounded_and_clamped (close : ℚ)
    (sma20 sma50 sma200 sma50_prev5 : Option ℚ) :
    -20 ≤ score_row close sma20 sma50 sma200 sma50_prev5 ∧
    score_row close sma20 sma50 sma200 sma50_prev5 ≤ 20 ∧
    score_row close sma20 sma50 sma200 sma50_prev5 =
      max (-20) (min 20 (rule1 close sma20 + rule2 sma20 sma50 + rule3 sma50 sma200 +
        rule4 sma50 sma50_prev5 + rule5 close sma200)) := by
  have h := score_row_eq_clamp close sma20 sma50 sma200 sma50_prev5
  refine ⟨?_, ?_, h⟩ <;> rw [h] <;> omega

/-- C3: in rules 1-4 all comparisons are strict, so a tie between the two
compared present values is scored as the negative branch (-2 for rules 1-2,
-4 for rules 3-4), never as 0. -/
theorem C3_ties_scored_negative (x : ℚ) :
    rule1 x (some x) = -2 ∧ rule2 (some x) (some x) = -2 ∧
    rule3 (some x) (some x) = -4 ∧ rule4 (some x) (some x) = -4 := by
  refine ⟨?_, ?_, ?_, ?_⟩ <;> simp [rule1, rule2, rule3, rule4]

/-- C4: when sma200 is present, rule 5 contributes +8 when the relative
distance is at least 10%, -8 when it is at most -10% (both bounds
inclusive), and 0 whenever the distance lies strictly between -10% and
+10%. -/
theorem C4_rule5_dead_zone (close a : ℚ) :
    ((close - a) / a ≥ 1 / 10 → rule5 close (some a) = 8) ∧
    ((close - a) / a ≤ -(1 / 10) → rule5 close (some a) = -8) ∧
    (-(1 / 10) < (close - a) / a → (close - a) / a < 1 / 10 →
      rule5 close (some a) = 0) := by
  refine ⟨fun h => ?_, fun h => ?_, fun h1 h2 => ?_⟩ <;>
    simp only [rule5] <;> split_ifs <;> first | rfl | linarith

theorem C4_rule5_dead_zone_witness :
    rule5 (11/10 : ℚ) (some 1) = 8 ∧ rule5 (9/10 : ℚ) (some 1) = -8 ∧
    rule5 (1 : ℚ) (some 1) = 0 :=
  ⟨(C4_rule5_dead_zone (11/10) 1).1 (by norm_num),
   (C4_rule5_dead_zone (9/10) 1).2.1 (by norm_num),
   (C4_rule5_dead_zone 1 1).2.2 (by norm_num) (by norm_num)⟩

/-- C5: a rule whose required input is absent contributes exactly 0 (not a
penalty); with every optional input absent the total score is 0. -/
theorem C5_absent_inputs_contribute_zero (c : ℚ) (a b : Option ℚ) :
    rule1 c none = 0 ∧
    rule2 none a = 0 ∧ rule2 a none = 0 ∧
    rule3 none b = 0 ∧ rule3 b none = 0 ∧
    rule4 none a = 0 ∧ rule4 a none = 0 ∧
    rule5 c none = 0 ∧
    score_row c none none none none = 0 := by
  refine ⟨rfl, ?_, ?_, ?_, ?_, ?_, ?_, rfl, rfl⟩ <;>
    first
    | (cases a <;> rfl)
    | (cases b <;> rfl)

lemma rule1_even (c : ℚ) (a : Option ℚ) : 2 ∣ rule1 c a := by
  cases a <;> dsimp only [rule1] <;> first | decide | (split_ifs <;> decide)

lemma rule2_even (a b : Option ℚ) : 2 ∣ rule2 a b := by
  cases a <;> cases b <;> dsimp only [rule2] <;>
    first | decide | (split_ifs <;> decide)

lemma rule3_even (a b : Option ℚ) : 2 ∣ rule3 a b := by
  cases a <;> cases b <;> dsimp only [rule3] <;>
    first | decide | (split_ifs <;> decide)

lemma rule4_even (a b : Option ℚ) : 2 ∣ rule4 a b := by
  cases a <;> cases b <;> dsimp only [rule4] <;>
    first | decide | (split_ifs <;> decide)

lemma rule5_even (c : ℚ) (a : Option ℚ) : 2 ∣ rule5 c a := by
  cases a <;> dsimp only [rule5] <;> first | decide | (split_ifs <;> decide)

/-- C10: the trend score is always an even integer: every rule contributes
an even amount and clamping to [-20, 20] preserves evenness. -/
theorem C10_score_even (close : ℚ) (sma20 sma50 sma200 sma50_prev5 : Option ℚ) :
    Even (score_row close sma20 sma50 sma200 sma50_prev5) := by
  rw [Int.even_iff, score_row_eq_clamp]
  have h1 := rule1_even close sma20
  have h2 := rule2_even sma20 sma50
  have h3 := rule3_even sma50 sma200
  have h4 := rule4_even sma50 sma50_prev5
  have h5 := rule5_even close sma200
  omega

lemma slice_eq_map_range (xs : List ℚ) (k w : ℕ) (h : k + w ≤ xs.length) :
    (xs.drop k).take w = (List.range w).map fun j => xs.getD (k + j) 0 := by
  apply List.ext_getElem
  · simp only [List.length_take, List.length_drop, List.length_map, List.length_range]
    omega
  · intro j hj1 hj2
    have hj : j < w := by simpa using hj2
    have hkj : k + j < xs.length := by omega
    simp only [List.getElem_take, List.getElem_drop, List.getElem_map, List.getElem_range]
    exact (List.getD_eq_getElem _ _ hkj).symm

lemma rollingMean_length (w : Nat) (close : List ℚ) :
    (rollingMean w close).length = close.length := by
  simp [rollingMean]

/-- C2: for each window w in 20, 50, 200 and each position i of the series,
the rolling indicator is aligned 1:1 with the series, its value at i is
present iff `i >= w - 1`, and when present it is the arithmetic mean of the
closes at positions `i-w+1 .. i`; for `i < w - 1` it is absent whatever the
data. -/
theorem C2_rolling_mean_window (w : ℕ) (hw : w = 20 ∨ w = 50 ∨ w = 200)
    (close : List ℚ) (i : ℕ) (hi : i < close.length) :
    (rollingMean w close).length = close.length ∧
    (rollingMean w close).getD i none =
      (if w - 1 ≤ i then
        some ((((List.range w).map fun j => close.getD (i + 1 - w + j) 0).sum) / w)
      else none) := by
  have hw1 : 1 ≤ w := by rcases hw with h | h | h <;> omega
  refine ⟨rollingMean_length w close, ?_⟩
  rw [List.getD_eq_getElem _ _ ((rollingMean_length w close).symm ▸ hi)]
  simp only [rollingMean, List.getElem_map, List.getElem_range]
  by_cases h : w ≤ i + 1
  · rw [if_pos h, if_pos (show w - 1 ≤ i by omega),
      slice_eq_map_range close (i + 1 - w) w (by omega)]
  · rw [if_neg h, if_neg (show ¬ (w - 1 ≤ i) by omega)]

theorem C2_rolling_mean_window_witness :
    (rollingMean 20 (List.replicate 21 (2:ℚ))).length = (List.replicate 21 (2:ℚ)).length ∧
    (rollingMean 20 (List.replicate 21 (2:ℚ))).getD 20 none =
      (if 20 - 1 ≤ 20 then
        some ((((List.range 20).map fun j =>
          (List.replicate 21 (2:ℚ)).getD (20 + 1 - 20 + j) 0).sum) / 20)
      else none) :=
  C2_rolling_mean_window 20 (Or.inl rfl) (List.replicate 21 (2:ℚ)) 20 (by simp)

/-- One entry of trend_scores.csv, as built by `score_from_df`. -/
structure ScoreRecord where
  ticker : String
  close : ℚ
  sma20 : Option ℚ
  sma50 : Option ℚ
  sma200 : Option ℚ
  score : Int
deriving Repr, DecidableEq

/-- `score_from_df` from main.py: raises (here: returns `.error`) when the
frame has fewer than 205 rows; otherwise reads the last row's close and
SMAs and the `sma50` from 5 sessions earlier (`iloc[-6]`) and scores them.
A NaN indicator value is modelled as `none`. -/
def score_from_df (ticker : String) (close : List ℚ) : Except String ScoreRecord :=
  if close.length < 205 then .error ("Not enough history for " ++ ticker)
  else
    let n := close.length
    let c := close.getD (n - 1) 0
    let s20 := (rollingMean 20 close).getD (n - 1) none
    let s50 := (rollingMean 50 close).getD (n - 1) none
    let s200 := (rollingMean 200 close).getD (n - 1) none
    let s50p5 := (rollingMean 50 close).getD (n - 6) none
    .ok ⟨ticker, c, s20, s50, s200, score_row c s20 s50 s200 s50p5⟩

/-- C6: per-instrument scoring fails (with the insufficient-history error)
exactly when the series has fewer than 205 sessions, and succeeds exactly
when it has at least 205; in particular 204 sessions fail and 205 succeed. -/
theorem C6_insufficient_history_boundary (ticker : String) (close : List ℚ) :
    ((∃ e, score_from_df ticker close = .error e) ↔ close.length < 205) ∧
    ((∃ r, score_from_df ticker close = .ok r) ↔ 205 ≤ close.length) := by
  by_cases h : close.length < 205 <;> simp [score_from_df, h] <;> omega


/-- The row selection `df[~df.index.duplicated(keep="last")]` of
`fetch_prices`: a row survives exactly when no later row carries the same
date. -/
def dedupLast : List (ℕ × ℚ) → List (ℕ × ℚ)
  | [] => []
  | r :: rest => if ∃ s ∈ rest, s.1 = r.1 then dedupLast rest else r :: dedupLast rest

/-- Comparison of rows by their date index, as used by `sort_index()`. -/
def byDate (p q : ℕ × ℚ) : Prop := p.1 ≤ q.1

instance : DecidableRel byDate := fun p q => Nat.decLe p.1 q.1

instance : IsTotal (ℕ × ℚ) byDate := ⟨fun a b => Nat.le_total a.1 b.1⟩

instance : IsTrans (ℕ × ℚ) byDate := ⟨fun _ _ _ h1 h2 => le_trans h1 h2⟩

/-- The normalization part of `fetch_prices` from main.py: the raw download
result is a list of (date, close) rows; an empty result raises (here:
`.error`), duplicated dates keep the last row, and the result is sorted
ascending by date. -/
def fetch_prices (raw : List (ℕ × ℚ)) : Except String (List (ℕ × ℚ)) :=
  if raw.isEmpty then .error "No data"
  else .ok (List.insertionSort byDate (dedupLast raw))

lemma dedupLast_cons (r : ℕ × ℚ) (rest : List (ℕ × ℚ)) :
    dedupLast (r :: rest) =
      if ∃ s ∈ rest, s.1 = r.1 then dedupLast rest else r :: dedupLast rest := rfl

lemma mem_of_mem_dedupLast {x : ℕ × ℚ} :
    ∀ {l : List (ℕ × ℚ)}, x ∈ dedupLast l → x ∈ l := by
  intro l
  induction l with
  | nil => simp [dedupLast]
  | cons r rest ih =>
      rw [dedupLast_cons]
      split_ifs with h
      · exact fun hx => List.mem_cons_of_mem _ (ih hx)
      · intro hx
        rcases List.mem_cons.1 hx with h1 | h2
        · exact h1 ▸ List.mem_cons_self _ _
        · exact List.mem_cons_of_mem _ (ih h2)

lemma pairwise_ne_dedupLast :
    ∀ (l : List (ℕ × ℚ)), (dedupLast l).Pairwise (fun a b => a.1 ≠ b.1) := by
  intro l
  induction l with
  | nil => simp [dedupLast]
  | cons r rest ih =>
      rw [dedupLast_cons]
      split_ifs with h
      · exact ih
      · refine List.Pairwise.cons ?_ ih
        intro b hb hrb
        exact h ⟨b, mem_of_mem_dedupLast hb, hrb.symm⟩

lemma mem_dedupLast_iff (d : ℕ) (v : ℚ) :
    ∀ (l : List (ℕ × ℚ)),
      ((d, v) ∈ dedupLast l ↔ (l.filter fun s => s.1 == d).getLast? = some (d, v)) := by
  intro l
  induction l with
  | nil => simp [dedupLast]
  | cons r rest ih =>
      rw [dedupLast_cons, List.filter_cons]
      by_cases hr : r.1 = d
      · have hpr : (r.1 == d) = true := by simpa using hr
        rw [hpr, if_pos (show (true : Bool) = true from rfl)]
        by_cases hdup : ∃ s ∈ rest, s.1 = r.1
        · rw [if_pos hdup]
          obtain ⟨s, hs, hsd⟩ := hdup
          have hsf : s ∈ rest.filter (fun s => s.1 == d) :=
            List.mem_filter.2 ⟨hs, by simp [hsd, hr]⟩
          obtain ⟨x, fr, hfr⟩ := List.exists_cons_of_ne_nil (List.ne_nil_of_mem hsf)
          rw [hfr, List.getLast?_cons_cons, ← hfr]
          exact ih
        · rw [if_neg hdup]
          have hfe : rest.filter (fun s => s.1 == d) = [] := by
            rw [List.filter_eq_nil_iff]
            intro a ha
            simp only [beq_iff_eq]
            intro had
            exact hdup ⟨a, ha, by rw [had, hr]⟩
          rw [hfe, List.getLast?_singleton]
          constructor
          · intro hx
            rcases List.mem_cons.1 hx with h1 | h2
            · rw [h1]
            · exact absurd ⟨(d, v), mem_of_mem_dedupLast h2, hr.symm⟩ hdup
          · intro hx
            rw [Option.some_inj.1 hx]
            exact List.mem_cons_self _ _
      · have hpr : (r.1 == d) = false := by simpa using hr
        rw [hpr, if_neg (show ¬ ((false : Bool) = true) by simp)]
        by_cases hdup : ∃ s ∈ rest, s.1 = r.1
        · rw [if_pos hdup]; exact ih
        · rw [if_neg hdup]
          constructor
          · intro hx
            rcases List.mem_cons.1 hx with h1 | h2
            · exact absurd (congrArg Prod.fst h1.symm) hr
            · exact ih.1 h2
          · intro hx
            exact List.mem_cons_of_mem _ (ih.2 hx)

/-- C7: for every non-empty raw price collection, normalization succeeds and
yields a series strictly ascending in date (so each date appears at most
once), and a row (d, v) is in the result exactly when it is the last-seen
raw observation with date d — later-arriving data supersedes earlier. -/
theorem C7_normalize_dedup_sort (raw : List (ℕ × ℚ)) (hne : raw ≠ []) :
    ∃ out, fetch_prices raw = .ok out ∧
      out.Pairwise (fun a b => a.1 < b.1) ∧
      (∀ d v, (d, v) ∈ out ↔ (raw.filter fun s => s.1 == d).getLast? = some (d, v)) := by
  refine ⟨List.insertionSort byDate (dedupLast raw), ?_, ?_, ?_⟩
  · simp [fetch_prices, hne]
  · have hsorted : (List.insertionSort byDate (dedupLast raw)).Pairwise byDate :=
      List.sorted_insertionSort byDate (dedupLast raw)
    have hperm := List.perm_insertionSort byDate (dedupLast raw)
    have hne' : (List.insertionSort byDate (dedupLast raw)).Pairwise
        (fun a b : ℕ × ℚ => a.1 ≠ b.1) :=
      (hperm.pairwise_iff (fun h => Ne.symm h)).2 (pairwise_ne_dedupLast raw)
    exact (hsorted.and hne').imp (fun h => lt_of_le_of_ne h.1 h.2)
  · intro d v
    rw [(List.perm_insertionSort byDate (dedupLast raw)).mem_iff]
    exact mem_dedupLast_iff d v raw

theorem C7_normalize_dedup_sort_witness :
    ([((2:ℕ), (5:ℚ)), (1, 3), (2, 7)] ≠ []) ∧
    (∃ out, fetch_prices [((2:ℕ), (5:ℚ)), (1, 3), (2, 7)] = .ok out ∧
      out.Pairwise (fun a b => a.1 < b.1) ∧
      (∀ d v, (d, v) ∈ out ↔
        (([((2:ℕ), (5:ℚ)), (1, 3), (2, 7)].filter fun s => s.1 == d).getLast? =
          some (d, v)))) :=
  ⟨by decide, C7_normalize_dedup_sort [((2:ℕ), (5:ℚ)), (1, 3), (2, 7)] (by decide)⟩

/-- One entry of latest_prices_sma.csv, as built by `latest_row`. -/
structure LatestRow where
  ticker : String
  close : ℚ
  sma20 : Option ℚ
  sma50 : Option ℚ
  sma200 : Option ℚ
deriving Repr, DecidableEq

/-- `latest_row` from main.py: the last row's close and SMA values. -/
def latest_row (ticker : String) (close : List ℚ) : LatestRow :=
  let n := close.length
  ⟨ticker, close.getD (n - 1) 0,
    (rollingMean 20 close).getD (n - 1) none,
    (rollingMean 50 close).getD (n - 1) none,
    (rollingMean 200 close).getD (n - 1) none⟩

/-- What one run of `main` accumulates: the `latest_rows` list, the
`score_rows` list and the printed per-ticker `[WARN]` messages. -/
structure RunResult where
  latestRows : List LatestRow
  scoreRows : List ScoreRecord
  failures : List (String × String)
deriving Repr, DecidableEq

/-- The per-ticker loop of `main` from main.py.  `fetch` abstracts the
external `fetch_prices`+`add_indicators` stage for one ticker (returning its
close series, on which indicators are recomputed on demand).  A fetch
failure is caught and recorded; a fetched series shorter than 20 rows only
warns instead of plotting; a scoring failure is caught and recorded; the
loop always continues with the remaining tickers. -/
def processTickers (fetch : String → Except String (List ℚ)) :
    List String → RunResult
  | [] => ⟨[], [], []⟩
  | t :: ts =>
      let rest := processTickers fetch ts
      match fetch t with
      | .error e => ⟨rest.latestRows, rest.scoreRows, (t, e) :: rest.failures⟩
      | .ok close =>
          let plotted :=
            if 20 ≤ close.length then ([latest_row t close], ([] : List (String × String)))
            else ([], [(t, "not enough history to plot")])
          let scored :=
            match score_from_df t close with
            | .ok r => ([r], ([] : List (String × String)))
            | .error e => ([], [(t, e)])
          ⟨plotted.1 ++ rest.latestRows, scored.1 ++ rest.scoreRows,
            plotted.2 ++ scored.2 ++ rest.failures⟩

/-- `main` from main.py, after the per-ticker loop:
`if not latest_rows and not score_rows: raise SystemExit("No outputs produced.")`,
otherwise the run's collections are handed to the reporting code. -/
def mainRun (fetch : String → Except String (List ℚ)) (tickers : List String) :
    Except String RunResult :=
  let r := processTickers fetch tickers
  if r.latestRows.isEmpty && r.scoreRows.isEmpty then .error "No outputs produced."
  else .ok r

lemma score_from_df_ok (t : String) (close : List ℚ) (h : 205 ≤ close.length) :
    ∃ r, score_from_df t close = .ok r := by
  unfold score_from_df
  rw [if_neg (by omega)]
  exact ⟨_, rfl⟩

lemma processTickers_all_fail (fetch : String → Except String (List ℚ)) :
    ∀ ts : List String, (∀ t ∈ ts, ∃ e, fetch t = .error e) →
      (processTickers fetch ts).latestRows = [] ∧
      (processTickers fetch ts).scoreRows = [] := by
  intro ts
  induction ts with
  | nil => intro _; exact ⟨rfl, rfl⟩
  | cons t ts ih =>
      intro h
      obtain ⟨e, he⟩ := h t (List.mem_cons_self _ _)
      have hr := ih fun u hu => h u (List.mem_cons_of_mem _ hu)
      simp [processTickers, he, hr.1, hr.2]

lemma processTickers_score_nonempty (fetch : String → Except String (List ℚ)) :
    ∀ (ts : List String) (t : String), t ∈ ts →
      ∀ close, fetch t = .ok close → 205 ≤ close.length →
      (processTickers fetch ts).scoreRows ≠ [] := by
  intro ts
  induction ts with
  | nil => intro t ht; exact absurd ht (List.not_mem_nil t)
  | cons u ts ih =>
      intro t ht close hf hl
      rcases List.mem_cons.1 ht with rfl | ht'
      · obtain ⟨r, hr⟩ := score_from_df_ok t close hl
        simp [processTickers, hf, hr]
      · have hrest := ih t ht' close hf hl
        cases hfu : fetch u with
        | error e => simpa [processTickers, hfu] using hrest
        | ok c =>
            cases hsc : score_from_df u c <;>
              simp [processTickers, hfu, hsc, hrest]

/-- C8 as written is false: with a single instrument whose fetch succeeds
but whose series has only 20 sessions, scoring fails (so zero instruments
succeed — the instrument fails at the scoring stage), yet `main` raises no
fatal error: it returns a RunResult with an empty score list, because the
latest-values row produced by the plotting stage counts as an output. -/
theorem C8_counterexample_zero_scores_not_fatal :
    mainRun (fun _ => Except.ok (List.replicate 20 (1:ℚ))) ["A"] =
      .ok ⟨[latest_row "A" (List.replicate 20 1)], [],
        [("A", "Not enough history for " ++ "A")]⟩ := rfl

/-- C8 amended: the fatal no-results error occurs exactly when no outputs of
any kind were produced; in particular, if every instrument's fetch fails the
run fails with the fatal error, and a run with at least one instrument whose
fetch succeeds with at least 205 sessions (hence is scored) is not fatal. -/
theorem C8_no_results_amended (fetch : String → Except String (List ℚ))
    (tickers : List String) :
    ((∀ t ∈ tickers, ∃ e, fetch t = .error e) →
      mainRun fetch tickers = .error "No outputs produced.") ∧
    ((∃ t ∈ tickers, ∃ close, fetch t = .ok close ∧ 205 ≤ close.length) →
      (mainRun fetch tickers).isOk = true) := by
  constructor
  · intro h
    have hr := processTickers_all_fail fetch tickers h
    simp [mainRun, hr.1, hr.2]
  · rintro ⟨t, ht, close, hf, hl⟩
    have hs := processTickers_score_nonempty fetch tickers t ht close hf hl
    simp [mainRun, List.isEmpty_iff, hs, Except.isOk, Except.toBool]

theorem C8_no_results_amended_witness :
    mainRun (fun _ => Except.error "fetch failed") ["A"] = .error "No outputs produced." ∧
    (mainRun (fun _ => Except.ok (List.replicate 205 (1:ℚ))) ["A"]).isOk = true :=
  ⟨(C8_no_results_amended (fun _ => Except.error "fetch failed") ["A"]).1
      (fun _ _ => ⟨"fetch failed", rfl⟩),
   (C8_no_results_amended (fun _ => Except.ok (List.replicate 205 (1:ℚ))) ["A"]).2
      ⟨"A", List.mem_cons_self _ _, List.replicate 205 1, rfl, (List.length_replicate 205 (1:ℚ)).ge⟩⟩

/-- C9: a per-instrument failure is caught, recorded as (ticker, reason) and
excluded while processing continues: with 3 instruments of which exactly the
first's fetch fails and the other two carry at least 205 sessions, the run
is not fatal and yields exactly 2 score records and exactly the one recorded
failure. -/
theorem C9_failure_isolation (fetch : String → Except String (List ℚ))
    (t1 t2 t3 e : String) (xs2 xs3 : List ℚ)
    (h1 : fetch t1 = .error e) (h2 : fetch t2 = .ok xs2) (h3 : fetch t3 = .ok xs3)
    (hl2 : 205 ≤ xs2.length) (hl3 : 205 ≤ xs3.length) :
    ∃ r, mainRun fetch [t1, t2, t3] = .ok r ∧
      r.scoreRows.length = 2 ∧ r.failures = [(t1, e)] := by
  obtain ⟨r2, hr2⟩ := score_from_df_ok t2 xs2 hl2
  obtain ⟨r3, hr3⟩ := score_from_df_ok t3 xs3 hl3
  have hp : processTickers fetch [t1, t2, t3] =
      ⟨[latest_row t2 xs2, latest_row t3 xs3], [r2, r3], [(t1, e)]⟩ := by
    simp [processTickers, h1, h2, h3, hr2, hr3,
      show 20 ≤ xs2.length by omega, show 20 ≤ xs3.length by omega]
  refine ⟨⟨[latest_row t2 xs2, latest_row t3 xs3], [r2, r3], [(t1, e)]⟩, ?_, rfl, rfl⟩
  simp [mainRun, hp]

theorem C9_failure_isolation_witness :
    ∃ r, mainRun
        (fun t => if t = "B" then Except.error "boom"
          else Except.ok (List.replicate 205 (1:ℚ)))
        ["B", "A", "C"] = .ok r ∧
      r.scoreRows.length = 2 ∧ r.failures = [("B", "boom")] :=
  C9_failure_isolation _ "B" "A" "C" "boom" (List.replicate 205 1) (List.replicate 205 1)
    rfl rfl rfl (List.length_replicate 205 (1:ℚ)).ge (List.length_replicate 205 (1:ℚ)).ge
